import Mathlib

/-!
Verification of the Alicat serial ASCII-protocol client
(`src/Alicat/alicat.py`) against its written specification.

The Python code is shallowly embedded: machine integers are `Nat`
(Python integers are unbounded, so no wrap-around is modelled), byte
strings are `List Nat`, the read side of a serial connection is the list
of bytes it will deliver (an exhausted list models the per-read timeout,
which `pyserial` signals by an empty read), and command transmission is
logged as a list of the command strings sent.  Fallible operations
return `Option`/`Except`.
-/

namespace Alicat

/-! ### Bit-arithmetic bridge

The Python source manipulates register values with `&` on plain
integers.  These lemmas express single-bit masks through division and
remainder so that `omega` can reason about them. -/

/-- Value of `n &&& 2 ^ k` through division and remainder. -/
theorem and_two_pow_eq_ite (n k : Nat) :
    n &&& 2 ^ k = if n / 2 ^ k % 2 = 1 then 2 ^ k else 0 := by
  rw [Nat.and_two_pow, Nat.testBit_to_div_mod]
  by_cases h : n / 2 ^ k % 2 = 1 <;> simp [h]

/-- Mask with bit 8. -/
theorem and_256_eq (n : Nat) : n &&& 256 = if n / 256 % 2 = 1 then 256 else 0 := by
  have h := and_two_pow_eq_ite n 8; norm_num at h; exact h

/-- Mask with bit 9. -/
theorem and_512_eq (n : Nat) : n &&& 512 = if n / 512 % 2 = 1 then 512 else 0 := by
  have h := and_two_pow_eq_ite n 9; norm_num at h; exact h

/-- Mask with bit 10. -/
theorem and_1024_eq (n : Nat) : n &&& 1024 = if n / 1024 % 2 = 1 then 1024 else 0 := by
  have h := and_two_pow_eq_ite n 10; norm_num at h; exact h

/-- Mask with bit 11 (the gas-persistence flag of register 18). -/
theorem and_2048_eq (n : Nat) : n &&& 2048 = if n / 2048 % 2 = 1 then 2048 else 0 := by
  have h := and_two_pow_eq_ite n 11; norm_num at h; exact h

/-! ### `Serial_Connection._read`: byte-wise line framing

Embeds the accumulation loop of `Serial_Connection._read`
(`src/Alicat/alicat.py` lines 71-87): read single bytes, appending each
to the line, stopping after a carriage-return byte (13) is appended or
after an empty read (modelled by the input running out). -/

/-- The byte-accumulation loop of `_read`: the consumed prefix of the
input, up to and including the first carriage return, or the whole
input when no carriage return arrives. -/
def accumulateLine : List Nat → List Nat
  | [] => []
  | b :: rest => if b = 13 then [13] else b :: accumulateLine rest

/-- Python `str.strip` whitespace set. -/
def pyIsSpace (c : Char) : Bool :=
  c = ' ' || c = '\t' || c = '\n' || c = '\r' || c = '\x0b' || c = '\x0c'

/-- Python `str.strip`: drop leading and trailing whitespace. -/
def pyStrip (l : List Char) : List Char :=
  (((l.dropWhile pyIsSpace).reverse).dropWhile pyIsSpace).reverse

/-- `Serial_Connection._read` as a function of the pending input bytes:
decode the accumulated bytes as characters, strip surrounding
whitespace, then delete every backspace character (`\x08`). -/
def readLineOf (input : List Nat) : String :=
  ⟨(pyStrip ((accumulateLine input).map Char.ofNat)).filter
    (fun c => decide (c ≠ '\x08'))⟩

/-- Bytes left unread after one `_read` call. -/
def restAfterRead (input : List Nat) : List Nat :=
  input.drop (accumulateLine input).length

/-! ### `Serial_Connection._write` verbose read-out loop

Embeds the `verbose=True` branch of `Serial_Connection._write`
(`src/Alicat/alicat.py` lines 99-106): repeatedly `_read` a line,
collecting lines until the first empty one, which is dropped.  The
loop is written with an explicit fuel argument so that it stays
structurally recursive; every continuing iteration consumes at least
one input byte, so fuel `length + 1` is never exhausted (shown by
`writeVerboseAux_fuel`). -/

/-- Fuelled verbose read-out loop of `_write`. -/
def writeVerboseAux : Nat → List Nat → List String
  | 0, _ => []
  | fuel + 1, l =>
    if readLineOf l = "" then []
    else readLineOf l :: writeVerboseAux fuel (restAfterRead l)

/-- The list of lines returned by `_write(…, verbose=True)` given the
pending input bytes. -/
def writeVerboseLines (l : List Nat) : List String :=
  writeVerboseAux (l.length + 1) l

/-- All successive `_read` results until the input is exhausted
(after which every further `_read` returns the empty string). -/
def readAllAux : Nat → List Nat → List String
  | 0, _ => []
  | _, [] => []
  | fuel + 1, l => readLineOf l :: readAllAux fuel (restAfterRead l)

/-- The full stream of `_read` results obtainable from the input. -/
def allLines (l : List Nat) : List String :=
  readAllAux l.length l

/-! Basic facts about the accumulation loop. -/

theorem accumulateLine_ne_nil {l : List Nat} (h : l ≠ []) :
    accumulateLine l ≠ [] := by
  match l with
  | [] => exact absurd rfl h
  | b :: rest =>
    unfold accumulateLine
    by_cases hb : b = 13 <;> simp [hb]

theorem readLineOf_nil : readLineOf [] = "" := rfl

theorem restAfterRead_length_lt {l : List Nat} (h : l ≠ []) :
    (restAfterRead l).length < l.length := by
  have hacc := accumulateLine_ne_nil h
  have h1 : 1 ≤ (accumulateLine l).length := by
    cases hl : accumulateLine l with
    | nil => exact absurd hl hacc
    | cons a t => simp
  have h2 : 1 ≤ l.length := by
    cases l with
    | nil => exact absurd rfl h
    | cons a t => simp
  simp only [restAfterRead, List.length_drop]
  omega

theorem readLineOf_ne_empty_imp {l : List Nat} (h : readLineOf l ≠ "") :
    l ≠ [] := by
  intro hl
  subst hl
  exact h readLineOf_nil

/-! Fuel insensitivity: the fuelled loops agree for any sufficient fuel,
so the fuel is a proof device, not part of the modelled behaviour. -/

theorem readAllAux_nil (f : Nat) : readAllAux f [] = [] := by
  cases f <;> rfl

theorem readAllAux_cons (f : Nat) (b : Nat) (rest : List Nat) :
    readAllAux (f + 1) (b :: rest)
      = readLineOf (b :: rest) :: readAllAux f (restAfterRead (b :: rest)) := rfl

theorem writeVerboseAux_fuel :
    ∀ (f₁ : Nat) (l : List Nat) (f₂ : Nat), l.length < f₁ → l.length < f₂ →
      writeVerboseAux f₁ l = writeVerboseAux f₂ l := by
  intro f₁
  induction f₁ with
  | zero => intro l f₂ h₁ _; omega
  | succ f₁ ih =>
    intro l f₂ h₁ h₂
    cases f₂ with
    | zero => omega
    | succ f₂ =>
      rw [writeVerboseAux, writeVerboseAux]
      by_cases hs : readLineOf l = ""
      · simp [hs]
      · have hl : l ≠ [] := readLineOf_ne_empty_imp hs
        have hr := restAfterRead_length_lt hl
        simp only [hs, if_neg]
        rw [ih (restAfterRead l) f₂ (by omega) (by omega)]

theorem readAllAux_fuel :
    ∀ (f₁ : Nat) (l : List Nat) (f₂ : Nat), l.length ≤ f₁ → l.length ≤ f₂ →
      readAllAux f₁ l = readAllAux f₂ l := by
  intro f₁
  induction f₁ with
  | zero =>
    intro l f₂ h₁ _
    have : l = [] := List.length_eq_zero.mp (by omega)
    subst this
    rw [readAllAux_nil, readAllAux_nil]
  | succ f₁ ih =>
    intro l f₂ h₁ h₂
    cases l with
    | nil => rw [readAllAux_nil, readAllAux_nil]
    | cons b rest =>
      cases f₂ with
      | zero => simp at h₂
      | succ f₂ =>
        rw [readAllAux_cons, readAllAux_cons]
        have hr := restAfterRead_length_lt (l := b :: rest) (by simp)
        rw [ih (restAfterRead (b :: rest)) f₂ (by simp at h₁ hr ⊢; omega)
          (by simp at h₂ hr ⊢; omega)]

/-- One unfolding of the verbose read-out loop. -/
theorem writeVerboseLines_step (l : List Nat) :
    writeVerboseLines l =
      if readLineOf l = "" then []
      else readLineOf l :: writeVerboseLines (restAfterRead l) := by
  unfold writeVerboseLines
  rw [writeVerboseAux]
  by_cases hs : readLineOf l = ""
  · simp [hs]
  · have hl : l ≠ [] := readLineOf_ne_empty_imp hs
    have hr := restAfterRead_length_lt hl
    simp only [hs, if_neg]
    rw [writeVerboseAux_fuel l.length (restAfterRead l) ((restAfterRead l).length + 1)
      (by omega) (by omega)]

/-- One unfolding of the full line stream. -/
theorem allLines_step (l : List Nat) (hl : l ≠ []) :
    allLines l = readLineOf l :: allLines (restAfterRead l) := by
  unfold allLines
  cases l with
  | nil => exact absurd rfl hl
  | cons b rest =>
    rw [List.length_cons, readAllAux_cons]
    have hr := restAfterRead_length_lt (l := b :: rest) (by simp)
    rw [readAllAux_fuel rest.length (restAfterRead (b :: rest))
      (restAfterRead (b :: rest)).length (by simp at hr ⊢; omega) le_rfl]

/-- The verbose read-out returns exactly the successive `_read` results
up to, and excluding, the first empty line. -/
theorem writeVerbose_takeWhile_aux :
    ∀ (n : Nat) (l : List Nat), l.length ≤ n →
      writeVerboseLines l = (allLines l).takeWhile (fun s => decide (s ≠ "")) := by
  intro n
  induction n with
  | zero =>
    intro l h
    have : l = [] := List.length_eq_zero.mp (by omega)
    subst this
    rw [writeVerboseLines_step]
    simp [readLineOf_nil, allLines, readAllAux]
  | succ n ih =>
    intro l h
    rw [writeVerboseLines_step]
    by_cases hs : readLineOf l = ""
    · by_cases hl : l = []
      · subst hl
        simp [hs, allLines, readAllAux]
      · rw [allLines_step l hl, List.takeWhile_cons]
        simp [hs]
    · have hl : l ≠ [] := readLineOf_ne_empty_imp hs
      have hr := restAfterRead_length_lt hl
      rw [if_neg hs, allLines_step l hl, List.takeWhile_cons,
        if_pos (show decide (readLineOf l ≠ "") = true by simp [hs]),
        ih (restAfterRead l) (by omega)]

/-! Characterisation of the accumulation loop, and absence of carriage
returns and backspaces from `_read` results. -/

theorem accumulateLine_takeWhile (l : List Nat) :
    accumulateLine l
      = l.takeWhile (fun b => decide (b ≠ 13)) ++ (if 13 ∈ l then [13] else []) := by
  induction l with
  | nil => simp [accumulateLine]
  | cons b rest ih =>
    by_cases hb : b = 13
    · subst hb
      simp [accumulateLine, List.takeWhile_cons]
    · have hb' : (13 : Nat) ≠ b := fun hc => hb hc.symm
      simp [accumulateLine, hb, List.takeWhile_cons, ih, List.mem_cons, hb']

theorem char_toNat_ofNat {n : Nat} (h : n < 128) : (Char.ofNat n).toNat = n := by
  have hv : n.isValidChar := Or.inl (by omega)
  simp [Char.ofNat, hv, Char.ofNatAux, Char.toNat]
  rfl

theorem mem_pyStrip {c : Char} {l : List Char} (h : c ∈ pyStrip l) : c ∈ l := by
  unfold pyStrip at h
  rw [List.mem_reverse] at h
  have h1 := (List.dropWhile_sublist _).mem h
  rw [List.mem_reverse] at h1
  exact (List.dropWhile_sublist _).mem h1

theorem cr_not_mem_pyStrip {w : List Char} (hw : '\r' ∉ w) :
    '\r' ∉ pyStrip (w ++ ['\r']) := by
  unfold pyStrip
  rw [List.dropWhile_append]
  by_cases he : (w.dropWhile pyIsSpace).isEmpty
  · simp [he, List.dropWhile, pyIsSpace]
  · simp only [he, if_neg, Bool.not_eq_true]
    intro hmem
    rw [List.mem_reverse] at hmem
    have step : ((w.dropWhile pyIsSpace ++ ['\r']).reverse).dropWhile pyIsSpace
        = ((w.dropWhile pyIsSpace).reverse).dropWhile pyIsSpace := by
      rw [List.reverse_append]
      simp [List.dropWhile, pyIsSpace]
    rw [step] at hmem
    have h1 := (List.dropWhile_sublist _).mem hmem
    rw [List.mem_reverse] at h1
    exact hw ((List.dropWhile_sublist _).mem h1)

theorem readLineOf_no_cr_no_bs (input : List Nat) (h : ∀ b ∈ input, b < 128) :
    '\r' ∉ (readLineOf input).data ∧ '\x08' ∉ (readLineOf input).data := by
  constructor
  · show '\r' ∉ (readLineOf input).data
    unfold readLineOf
    intro hmem
    simp only [String.data] at hmem
    have hmem' := List.mem_filter.mp hmem
    have hcr : '\r' ∈ pyStrip ((accumulateLine input).map Char.ofNat) := hmem'.1
    have hW : '\r' ∉ (input.takeWhile (fun b => decide (b ≠ 13))).map Char.ofNat := by
      intro hc
      rcases List.mem_map.mp hc with ⟨b, hb, hbc⟩
      have hbne : b ≠ 13 := by
        have hp := List.mem_takeWhile_imp (p := fun b => decide (b ≠ 13)) hb
        simpa using hp
      have hbin : b ∈ input := (List.takeWhile_sublist _).mem hb
      have hb128 : b < 128 := h b hbin
      have : b = 13 := by
        have := congrArg Char.toNat hbc
        rwa [char_toNat_ofNat hb128] at this
      exact hbne this
    rw [accumulateLine_takeWhile] at hcr
    by_cases hin : 13 ∈ input
    · simp only [hin, if_pos, List.map_append, List.map_cons, List.map_nil] at hcr
      have h13 : Char.ofNat 13 = '\r' := by decide
      rw [h13] at hcr
      exact cr_not_mem_pyStrip hW hcr
    · simp only [hin, if_neg, not_false_eq_true, List.append_nil] at hcr
      exact hW (mem_pyStrip hcr)
  · show '\x08' ∉ (readLineOf input).data
    unfold readLineOf
    intro hmem
    simp only [String.data] at hmem
    have hmem' := List.mem_filter.mp hmem
    exact absurd rfl (of_decide_eq_true hmem'.2)

/-! Concrete wire examples used by the claims. -/

/-- The spec's example response frame, as raw bytes. -/
def exBytes : List Nat := "A +012.34 +005.67 Air\r".data.map Char.toNat

/-- A verbose response: two data lines, the blank sentinel, then stray
bytes that must not be returned. -/
def vExBytes : List Nat :=
  "A +012.34 +005.67 Air\rB 1\r\rZ9\r".data.map Char.toNat

/-- A verbose response whose very first line is already empty. -/
def vExEmptyFirst : List Nat := "\rA 1\r".data.map Char.toNat

/-- C6: readLine framing: for every input byte sequence, `_read`
accumulates bytes until a carriage-return byte or an empty read, and the
returned string carries no carriage return and no backspace; on the
bytes `"A +012.34 +005.67 Air\r"` it returns exactly
`"A +012.34 +005.67 Air"`. -/
theorem readLine_framing :
    readLineOf exBytes = "A +012.34 +005.67 Air" ∧
    (∀ input : List Nat,
      accumulateLine input
        = input.takeWhile (fun b => decide (b ≠ 13)) ++ (if 13 ∈ input then [13] else [])) ∧
    (∀ input : List Nat, (∀ b ∈ input, b < 128) →
      '\r' ∉ (readLineOf input).data ∧ '\x08' ∉ (readLineOf input).data) :=
  ⟨by decide, accumulateLine_takeWhile, readLineOf_no_cr_no_bs⟩

/-- Witness for `readLine_framing` at the concrete example frame. -/
theorem readLine_framing_witness :
    (∀ b ∈ exBytes, b < 128) ∧
    ('\r' ∉ (readLineOf exBytes).data ∧ '\x08' ∉ (readLineOf exBytes).data) :=
  ⟨by decide, readLine_framing.2.2 exBytes (by decide)⟩

/-- C7: a verbose `_write` returns the successive `_read` results up to
but excluding the first empty line; every returned string is non-empty,
and an immediately empty first line yields the empty sequence. -/
theorem writeVerbose_collects_nonempty_lines :
    (∀ l : List Nat,
      writeVerboseLines l = (allLines l).takeWhile (fun s => decide (s ≠ ""))) ∧
    (∀ l : List Nat, (writeVerboseLines l).all (fun s => decide (s ≠ "")) = true) ∧
    writeVerboseLines vExBytes = ["A +012.34 +005.67 Air", "B 1"] ∧
    writeVerboseLines vExEmptyFirst = [] := by
  refine ⟨fun l => writeVerbose_takeWhile_aux l.length l le_rfl,
    fun l => ?_, by decide, by decide⟩
  rw [writeVerbose_takeWhile_aux l.length l le_rfl]
  exact List.all_takeWhile

/-! ### `Serial_Connection` lifecycle and the shared port registry

Embeds `Serial_Connection.__init__` and `Serial_Connection._close`
(`src/Alicat/alicat.py` lines 27-68).  `open_ports` is the class-level
dictionary mapping a port string to its `serial.Serial` object;
connection objects are modelled by an index into `connOpen`, which
records whether each created `serial.Serial` object is still open.
Handles are the `Serial_Connection` instances themselves: `port`,
`baud`, the connection they reference, and their own `open` flag. -/

/-- One `Serial_Connection` instance: its `port`, `baud`, referenced
connection object, and `self.open` flag (`opn`). -/
structure SCHandle where
  port : String
  baud : Nat
  connId : Nat
  opn : Bool
deriving DecidableEq

/-- The process-wide picture: the `open_ports` registry, the open/closed
state of every `serial.Serial` object ever created, and all handles. -/
structure SCState where
  openPorts : List (String × Nat)
  connOpen : List Bool
  handles : List SCHandle
deriving DecidableEq

/-- Dictionary lookup in `open_ports`. -/
def lookupPort (l : List (String × Nat)) (p : String) : Option Nat :=
  (l.find? (fun q => q.1 = p)).map (fun q => q.2)

/-- `Serial_Connection.__init__`: reuse the registered connection for
`port` if one exists, else create and register a fresh one; the new
handle is appended and its index returned. -/
def scInit (s : SCState) (port : String) (baud : Nat) : SCState × Nat :=
  match lookupPort s.openPorts port with
  | some cid =>
    ({ s with handles := s.handles ++ [⟨port, baud, cid, true⟩] }, s.handles.length)
  | none =>
    let cid := s.connOpen.length
    ({ openPorts := s.openPorts ++ [(port, cid)],
       connOpen := s.connOpen ++ [true],
       handles := s.handles ++ [⟨port, baud, cid, true⟩] }, s.handles.length)

/-- `Serial_Connection._close` on the handle at index `i`: a no-op when
the handle is already closed; otherwise flush, close the connection
object, pop the port from `open_ports`, and clear the handle's flag. -/
def scClose (s : SCState) (i : Nat) : SCState :=
  match s.handles[i]? with
  | none => s
  | some h =>
    if h.opn = false then s
    else
      { openPorts := s.openPorts.eraseP (fun q => decide (q.1 = h.port)),
        connOpen := s.connOpen.set h.connId false,
        handles := s.handles.set i { h with opn := false } }

/-- C1 (amended): two handles opened on the same port identity share one
underlying connection object, but closing either handle closes that
shared connection and pops the port from the registry even while the
other handle remains open (only the closing handle's own flag is
cleared; the survivor still points at the now-closed connection). -/
theorem shared_port_second_close (p : String) (b₁ b₂ : Nat) :
    let s₀ : SCState := ⟨[], [], []⟩
    let r₁ := scInit s₀ p b₁
    let r₂ := scInit r₁.1 p b₂
    let s₃ := scClose r₂.1 r₁.2
    ((r₂.1.handles[r₁.2]?).map SCHandle.connId
        = (r₂.1.handles[r₂.2]?).map SCHandle.connId) ∧
    (r₂.1.handles[r₁.2]?).map SCHandle.connId = some 0 ∧
    lookupPort s₃.openPorts p = none ∧
    s₃.connOpen[0]? = some false ∧
    (s₃.handles[r₂.2]?).map SCHandle.opn = some true := by
  simp [scInit, scClose, lookupPort, List.find?, List.eraseP]

/-- C1 counterexample: two handles are opened on port `/dev/ttyUSB0`
(they do share connection 0); after closing only the first handle,
while the second is still open, the shared connection has been closed
and the port has been removed from `open_ports` — the opposite of the
claimed invariant. -/
theorem shared_port_close_counterexample :
    let s₀ : SCState := ⟨[], [], []⟩
    let r₁ := scInit s₀ "/dev/ttyUSB0" 19200
    let r₂ := scInit r₁.1 "/dev/ttyUSB0" 19200
    let s₃ := scClose r₂.1 r₁.2
    (r₂.1.handles[r₂.2]?).map SCHandle.connId = some 0 ∧
    (s₃.handles[r₂.2]?).map SCHandle.opn = some true ∧
    s₃.connOpen[0]? = some false ∧
    lookupPort s₃.openPorts "/dev/ttyUSB0" = none := by
  decide

/-- A `_close` on a handle whose `open` flag is already cleared returns
without touching anything. -/
theorem scClose_closed_noop (s : SCState) (i : Nat) (h : SCHandle)
    (hl : s.handles[i]? = some h) (ho : h.opn = false) : scClose s i = s := by
  unfold scClose
  rw [hl]
  simp [ho]

/-- A `_close` on a nonexistent handle index changes nothing (only used
to make `scClose` total). -/
theorem scClose_none_noop (s : SCState) (i : Nat)
    (hl : s.handles[i]? = none) : scClose s i = s := by
  unfold scClose
  rw [hl]

/-- C10: `_close` is idempotent at the public interface: close followed
by close equals a single close, and a close on an already-closed handle
returns leaving the handle, the connections and the registry all
unchanged. -/
theorem close_idempotent :
    (∀ (s : SCState) (i : Nat), scClose (scClose s i) i = scClose s i) ∧
    (∀ (s : SCState) (i : Nat) (h : SCHandle),
      s.handles[i]? = some h → h.opn = false → scClose s i = s) := by
  refine ⟨fun s i => ?_, fun s i h hl ho => scClose_closed_noop s i h hl ho⟩
  match hl : s.handles[i]? with
  | none => rw [scClose_none_noop s i hl, scClose_none_noop s i hl]
  | some h =>
    by_cases ho : h.opn = false
    · rw [scClose_closed_noop s i h hl ho, scClose_closed_noop s i h hl ho]
    · have hlen : i < s.handles.length := by
        by_contra hc
        push_neg at hc
        rw [List.getElem?_eq_none hc] at hl
        exact Option.noConfusion hl
      have hset : (scClose s i).handles[i]? = some { h with opn := false } := by
        unfold scClose
        rw [hl]
        simp [ho, List.getElem?_set_self hlen]
      exact scClose_closed_noop (scClose s i) i { h with opn := false } hset rfl

/-- Witness for `close_idempotent` on a concrete already-closed handle. -/
theorem close_idempotent_witness :
    (⟨[], [true], [⟨"p", 9600, 0, false⟩]⟩ : SCState).handles[0]?
        = some ⟨"p", 9600, 0, false⟩ ∧
    (⟨"p", 9600, 0, false⟩ : SCHandle).opn = false ∧
    scClose ⟨[], [true], [⟨"p", 9600, 0, false⟩]⟩ 0
        = ⟨[], [true], [⟨"p", 9600, 0, false⟩]⟩ :=
  ⟨by decide, by decide,
    close_idempotent.2 ⟨[], [true], [⟨"p", 9600, 0, false⟩]⟩ 0
      ⟨"p", 9600, 0, false⟩ (by decide) (by decide)⟩

/-! ### Firmware-string decoding

Embeds the version parsing of `MassFlowMeter._fetch_device_data`
(`src/Alicat/alicat.py` lines 199-215): a raw string starting with
`"GP"` yields the legacy generation with minor `"07"`; any other raw
string is normalised by lowercasing `'V'` to `'v'` and split once on the
first `'v'`; the part before the split must parse as the integer major
version.  A failed parse or a missing `'v'` raises in Python
(`int('')` / unpacking a one-element split), modelled by `none`. -/

/-- Firmware generation descriptor: legacy `"GP"` units versus
versioned `major.minor` units. -/
inductive Generation where
  | GP (minor : String)
  | versioned (major : Nat) (minor : String)
deriving DecidableEq

/-- Python `raw.replace('V', 'v')` (character-wise replacement). -/
def replaceVv (s : String) : String :=
  ⟨s.data.map (fun c => if c = 'V' then 'v' else c)⟩

/-- Python slice `s[:2]`. -/
def strTake2 (s : String) : String :=
  ⟨s.data.take 2⟩

/-- Python `int(s)` on the decimal strings this protocol produces: a
non-empty all-digit string parses to its value, anything else raises
(`none`). -/
def pyInt? (s : String) : Option Nat :=
  if s.data ≠ [] ∧ s.data.all Char.isDigit then
    some (s.data.foldl (fun a c => 10 * a + (c.toNat - 48)) 0)
  else none

/-- Split a character list once at the first occurrence of `c`;
`none` when `c` does not occur. -/
def splitOnceList : List Char → Char → Option (List Char × List Char)
  | [], _ => none
  | x :: xs, c =>
    if x = c then some ([], xs)
    else (splitOnceList xs c).map (fun q => (x :: q.1, q.2))

/-- Python `s.split(c, 1)` unpacked into exactly two strings. -/
def splitOnce (s : String) (c : Char) : Option (String × String) :=
  (splitOnceList s.data c).map (fun q => (⟨q.1⟩, ⟨q.2⟩))

/-- The firmware-version decoding of `_fetch_device_data`. -/
def decodeFirmware (raw : String) : Option Generation :=
  if strTake2 raw ≠ "GP" then
    match splitOnce (replaceVv raw) 'v' with
    | none => none
    | some (maj, minor) =>
      (pyInt? maj).map (fun m => Generation.versioned m minor)
  else
    some (Generation.GP "07")

/-- C3 counterexample: the raw string `"V2.07"` does not decode to
`Versioned(2, "07")`: lowercasing gives `"v2.07"`, the split at the
first `'v'` leaves an empty major substring, and `int('')` fails. -/
theorem decodeFirmware_counterexample :
    decodeFirmware "V2.07" = none ∧
    decodeFirmware "V2.07" ≠ some (Generation.versioned 2 "07") := by
  decide

/-- C3 (amended): a raw firmware string starting with `"GP"` decodes to
the legacy generation with minor `"07"` regardless of trailing
characters; otherwise the string is lowercased at `'V'` and split once
on the first `'v'`, and the part before the split must parse as the
integer major version.  `"2V07"` decodes to `Versioned(2, "07")` and
`"GP03"` to legacy, while `"V2.07"` fails to decode because its major
substring is empty. -/
theorem decodeFirmware_spec :
    (∀ raw : String, strTake2 raw = "GP" → decodeFirmware raw = some (Generation.GP "07")) ∧
    (∀ (raw maj minor : String) (m : Nat), strTake2 raw ≠ "GP" →
      splitOnce (replaceVv raw) 'v' = some (maj, minor) →
      pyInt? maj = some m →
      decodeFirmware raw = some (Generation.versioned m minor)) ∧
    decodeFirmware "2V07" = some (Generation.versioned 2 "07") ∧
    decodeFirmware "GP03" = some (Generation.GP "07") ∧
    decodeFirmware "V2.07" = none := by
  refine ⟨fun raw h => ?_, fun raw maj minor m h hsplit hmaj => ?_, by decide, by decide,
    by decide⟩
  · unfold decodeFirmware
    rw [if_neg (by simp [h])]
  · unfold decodeFirmware
    rw [if_pos h, hsplit]
    simp [hmaj]

/-- Witness for `decodeFirmware_spec` at concrete raw strings. -/
theorem decodeFirmware_spec_witness :
    (strTake2 "GP05" = "GP" ∧ decodeFirmware "GP05" = some (Generation.GP "07")) ∧
    (strTake2 "4v33.0" ≠ "GP" ∧ splitOnce (replaceVv "4v33.0") 'v' = some ("4", "33.0") ∧
      pyInt? "4" = some 4 ∧
      decodeFirmware "4v33.0" = some (Generation.versioned 4 "33.0")) :=
  ⟨⟨by decide, decodeFirmware_spec.1 "GP05" (by decide)⟩,
    ⟨by decide, by decide, by decide,
      decodeFirmware_spec.2.1 "4v33.0" "4" "33.0" 4 (by decide) (by decide) (by decide)⟩⟩

/-! ### Settings writes: `_eeprom_saving` and `set_autotare`

Embeds the command strings emitted by `MassFlowMeter._eeprom_saving`
(`src/Alicat/alicat.py` lines 158-178) and
`MassFlowController.set_autotare` (lines 583-600), as functions of the
register values the device reports.  Commands are recorded in the order
sent; a `$$R<addr>` entry is the read that precedes a write. -/

/-- The two persistence settings handled by `_eeprom_saving`. -/
inductive EESetting where
  | setpoint
  | gas
deriving DecidableEq

/-- The new register-18 value computed by `_eeprom_saving`
(write mode): bit 15 handles setpoint persistence, bit 11 gas
persistence (inverted sense). -/
def eepromNewR18 (r18 : Nat) (setting : EESetting) (state : Bool) : Nat :=
  match setting with
  | .setpoint =>
    if state = false ∧ r18 &&& 32768 ≠ 0 then r18 - 32768
    else if state = true ∧ r18 &&& 32768 = 0 then r18 + 32768
    else r18
  | .gas =>
    if state = true ∧ r18 &&& 2048 ≠ 0 then r18 - 2048
    else if state = false ∧ r18 &&& 2048 = 0 then r18 + 2048
    else r18

/-- Commands emitted by one `_eeprom_saving` call, given the register-18
value the device currently reports.  Read mode stops after the read;
write mode emits the (malformed) write `'$$W=18' + str(r18)` and the
re-read performed by the trailing recursive `read` call. -/
def eepromSavingCmds (r18 : Nat) (read : Bool) (setting : EESetting) (state : Bool) :
    List String :=
  if read then ["$$R18"]
  else ["$$R18", "$$W=18" ++ toString (eepromNewR18 r18 setting state), "$$R18"]

/-- Commands emitted by `set_autotare(delay)`, given the values the
device reports for registers 18, 19 and 20.  The `delay = 0` branch
emits `'$$W20' + str(...)` with no equals sign. -/
def setAutotareCmds (r18 r19 r20 : Nat) (delay : Nat) : List String :=
  ["$$R18", "$$W18=" ++ toString (r18 - (r18 &&& 255) + delay), "$$R19", "$$R20"] ++
    (if delay > 0 then
      ["$$W20=" ++ toString (r20 + 8192 - (r20 &&& 8192)),
       "$$W19=" ++ toString (r19 - (r19 &&& 255) + delay)]
     else
      ["$$W20" ++ toString (r20 - (r20 &&& 8192))])

/-- Modelled from the spec: the external-interface table's register
write command shape `$$W<addr>=<val>`, with a non-empty decimal address
and value. -/
def isSpecRegisterWrite (s : String) : Bool :=
  ⟨s.data.take 3⟩ = ("$$W" : String) &&
    match splitOnceList (s.data.drop 3) '=' with
    | some (addr, val) =>
      !addr.isEmpty && addr.all Char.isDigit && !val.isEmpty && val.all Char.isDigit
    | none => false

/-- C2: the gas-persistence update writes register 18 through the
malformed command `$$W=18<val>` instead of the documented
`$$W18=<val>`, and the `set_autotare(0)` disable path writes register
20 through `$$W20<val>` with no equals sign; evaluated at concrete
register contents, with the well-formed shapes shown alongside. -/
theorem settingsWrite_malformed :
    eepromSavingCmds 0 false .gas false = ["$$R18", "$$W=182048", "$$R18"] ∧
    isSpecRegisterWrite "$$W=182048" = false ∧
    setAutotareCmds 0 0 8192 0 = ["$$R18", "$$W18=0", "$$R19", "$$R20", "$$W200"] ∧
    isSpecRegisterWrite "$$W200" = false ∧
    isSpecRegisterWrite "$$W18=2048" = true ∧
    isSpecRegisterWrite "$$W18=0" = true := by
  decide

/-! ### `change_baud`

Embeds `MassFlowMeter.change_baud` (`src/Alicat/alicat.py` lines
355-378) as the list of commands emitted, given the firmware
generation, the unit tag, the current baud, the requested baud and the
register-87 value the device reports; the second component records
whether the call completes (false models the `KeyError` on a baud rate
missing from the table, raised only after any register-87 traffic). -/

/-- The legacy (`GP`) value-to-baud table. -/
def baudsGP (b : Nat) : Option Nat :=
  if b = 2400 then some 0
  else if b = 9600 then some 1
  else if b = 19200 then some 2
  else if b = 38400 then some 3
  else none

/-- The modern value-to-baud table. -/
def baudsModern (b : Nat) : Option Nat :=
  if b = 2400 then some 0
  else if b = 9600 then some 1
  else if b = 19200 then some 2
  else if b = 38400 then some 3
  else if b = 57600 then some 4
  else if b = 115200 then some 5
  else none

/-- Commands emitted by `change_baud(newbaud)`.  On a non-legacy device
the register-87 adjustment is guarded by `newbaud == 57600 or 115200`,
which Python evaluates as `(newbaud == 57600) or bool(115200)` — always
true — so the read and write of register 87 happen on every baud
change. -/
def changeBaudTrace (fw : Generation) (idChar : Char) (baud newbaud : Nat)
    (r87 : Nat) : List String × Bool :=
  if newbaud = baud then ([], true)
  else
    match fw with
    | .GP _ =>
      match baudsGP newbaud with
      | some code => (["$$W17=" ++ toString (256 * idChar.toNat + code)], true)
      | none => ([], false)
    | .versioned _ _ =>
      let pre := ["$$R87", "$$W87=" ++ toString (r87 + 2 - (r87 &&& 2))]
      match baudsModern newbaud with
      | some code =>
        (pre ++ ["$$W17=" ++ toString (240 + 256 * idChar.toNat + code)], true)
      | none => (pre, false)

/-- C5: a baud change to 9600 on a versioned device reads and writes
register 87 even though 9600 is not one of the two fastest rates,
because the guard `newbaud == 57600 or 115200` is always truthy; a
legacy device uses the 4-entry table and never touches register 87. -/
theorem changeBaud_touches_r87_always :
    changeBaudTrace (.versioned 6 "01") 'A' 19200 9600 0
        = (["$$R87", "$$W87=2", "$$W17=16881"], true) ∧
    "$$R87" ∈ (changeBaudTrace (.versioned 6 "01") 'A' 19200 9600 0).1 ∧
    changeBaudTrace (.GP "07") 'A' 19200 9600 0 = (["$$W17=16641"], true) ∧
    changeBaudTrace (.GP "07") 'A' 19200 38400 0 = (["$$W17=16643"], true) := by
  decide

/-! ### `change_control_var`

Embeds `MassFlowController.change_control_var`
(`src/Alicat/alicat.py` lines 544-569): the control variable lives in
bits 8-10 of register 20 (bit 10 ⇒ mass, bits 9 and 8 ⇒ volumetric,
bit 8 alone ⇒ pressure); the switch computes
`reg - oldBits + newBits` and writes only when the pattern changes. -/

/-- A selectable control variable (the keys of the `loop` table). -/
inductive ControlVar where
  | mass
  | volume
  | volumetric
  | pressure
deriving DecidableEq

/-- The `loop` bit-pattern table of `change_control_var`. -/
def loopBits : ControlVar → Nat
  | .mass => 1024
  | .volume => 768
  | .volumetric => 768
  | .pressure => 256

/-- The current-variable detection of `change_control_var`. -/
def detectVar (reg : Nat) : Nat :=
  if reg &&& 1024 ≠ 0 then 1024
  else if reg &&& 512 ≠ 0 ∧ reg &&& 256 ≠ 0 then 768
  else 256

/-- `change_control_var` (write mode): the new register value and
whether a register write was issued. -/
def changeControlVar (reg : Nat) (v : ControlVar) : Nat × Bool :=
  let var := detectVar reg
  let tgt := loopBits v
  if var ≠ tgt then (reg - var + tgt, true) else (reg, false)

/-- On a register whose bits 8-10 hold exactly one of the three
patterns, `detectVar` returns 256 times that three-bit field. -/
theorem detectVar_eq_field (reg : Nat)
    (h : reg / 256 % 8 = 4 ∨ reg / 256 % 8 = 3 ∨ reg / 256 % 8 = 1) :
    detectVar reg = 256 * (reg / 256 % 8) := by
  unfold detectVar
  rw [and_1024_eq, and_512_eq, and_256_eq]
  rcases h with h | h | h <;>
    · split_ifs <;> omega

/-- C8: switching the control variable from a register whose bits 8-10
hold exactly one variable pattern yields exactly the target's pattern
in bits 8-10, leaves all bits outside the three-bit field unchanged,
and issues a write exactly when the pattern changes. -/
theorem changeControlVar_exact (reg : Nat) (v : ControlVar)
    (h : reg / 256 % 8 = 4 ∨ reg / 256 % 8 = 3 ∨ reg / 256 % 8 = 1) :
    256 * ((changeControlVar reg v).1 / 256 % 8) = loopBits v ∧
    (changeControlVar reg v).1 % 256 = reg % 256 ∧
    (changeControlVar reg v).1 / 2048 = reg / 2048 ∧
    ((changeControlVar reg v).2 = true ↔ 256 * (reg / 256 % 8) ≠ loopBits v) := by
  have hd := detectVar_eq_field reg h
  unfold changeControlVar
  rw [hd]
  cases v <;> simp only [loopBits] <;> rcases h with h | h | h <;> split_ifs with hne <;>
    exact ⟨by omega, by omega, by omega, by simpa using hne⟩

/-- Witness for `changeControlVar_exact`: a register in volumetric mode
(bits 9 and 8 set) switched to mass. -/
theorem changeControlVar_exact_witness :
    ((11015 : Nat) / 256 % 8 = 4 ∨ (11015 : Nat) / 256 % 8 = 3 ∨
      (11015 : Nat) / 256 % 8 = 1) ∧
    (256 * ((changeControlVar 11015 .mass).1 / 256 % 8) = loopBits .mass ∧
     (changeControlVar 11015 .mass).1 % 256 = 11015 % 256 ∧
     (changeControlVar 11015 .mass).1 / 2048 = 11015 / 2048 ∧
     ((changeControlVar 11015 .mass).2 = true ↔
        256 * ((11015 : Nat) / 256 % 8) ≠ loopBits .mass)) :=
  ⟨Or.inr (Or.inl (by decide)),
    changeControlVar_exact 11015 .mass (Or.inr (Or.inl (by decide)))⟩

/-! ### Connection operations on a closed handle

Embeds `Serial_Connection._flush`, `_read` and `_write`
(`src/Alicat/alicat.py` lines 42-109) over one handle's view of its
connection: the `self.open` flag, the pending input bytes and the log
of frames passed to `connection.write`.  `_flush` and `_read` start
with `_test_open`, which raises `IOError` on a closed handle; `_write`
has no such guard and hands the frame to the connection before any
further call can raise. -/

/-- The error raised by `_test_open`. -/
inductive SErr where
  | connectionClosed
deriving DecidableEq

deriving instance DecidableEq for Except

/-- A handle's view of its serial connection. -/
structure HConn where
  opn : Bool
  inBytes : List Nat
  sent : List (List Nat)
deriving DecidableEq

/-- The wire frame built by `_write`: `str(ID) + str(command) + CR`,
encoded as ASCII bytes. -/
def frameBytes (ID command : String) : List Nat :=
  (ID ++ command ++ "\r").data.map Char.toNat

/-- `Serial_Connection._flush`. -/
def flushOp (c : HConn) : Except SErr HConn :=
  if c.opn then .ok { c with inBytes := [] } else .error .connectionClosed

/-- `Serial_Connection._read` (returns the line and the updated
connection). -/
def readOp (c : HConn) : Except SErr (String × HConn) :=
  if c.opn then
    .ok (readLineOf c.inBytes, { c with inBytes := restAfterRead c.inBytes })
  else .error .connectionClosed

/-- Input bytes left over after the verbose read-out loop of `_write`
(the terminating empty line's bytes are consumed too). -/
def verboseConsumeAux : Nat → List Nat → List Nat
  | 0, l => l
  | fuel + 1, l =>
    if readLineOf l = "" then restAfterRead l
    else verboseConsumeAux fuel (restAfterRead l)

/-- `Serial_Connection._write`: the frame goes to `connection.write`
first; afterwards the verbose branch loops `_read` and the
fire-and-forget branch calls `_flush`, either of which raises on a
closed handle — after the transmission already happened. -/
def writeOp (c : HConn) (ID command : String) (verbose : Bool) :
    HConn × Except SErr (Option (List String)) :=
  let c1 := { c with sent := c.sent ++ [frameBytes ID command] }
  if verbose then
    if c1.opn then
      ({ c1 with inBytes := verboseConsumeAux (c1.inBytes.length + 1) c1.inBytes },
        .ok (some (writeVerboseLines c1.inBytes)))
    else (c1, .error .connectionClosed)
  else
    match flushOp c1 with
    | .ok c2 => (c2, .ok none)
    | .error e => (c1, .error e)

/-- C9 (amended): on a closed handle, `_flush` and `_read` fail with the
connection-closed error and transmit nothing, but `_write` (verbose or
not) transmits its frame to the connection first and only then fails
with the connection-closed error from its subsequent `_read`/`_flush`
call. -/
theorem closed_handle_ops (c : HConn) (hc : c.opn = false)
    (ID command : String) (verbose : Bool) :
    readOp c = .error .connectionClosed ∧
    flushOp c = .error .connectionClosed ∧
    (writeOp c ID command verbose).2 = .error .connectionClosed ∧
    (writeOp c ID command verbose).1.sent = c.sent ++ [frameBytes ID command] := by
  refine ⟨?_, ?_, ?_, ?_⟩ <;>
    cases verbose <;> simp [readOp, flushOp, writeOp, hc]

/-- Witness for `closed_handle_ops` on a concrete closed handle. -/
theorem closed_handle_ops_witness :
    (⟨false, [], []⟩ : HConn).opn = false ∧
    (readOp ⟨false, [], []⟩ = .error .connectionClosed ∧
     flushOp ⟨false, [], []⟩ = .error .connectionClosed ∧
     (writeOp ⟨false, [], []⟩ "A" "$$L" false).2 = .error .connectionClosed ∧
     (writeOp ⟨false, [], []⟩ "A" "$$L" false).1.sent = [] ++ [frameBytes "A" "$$L"]) :=
  ⟨rfl, closed_handle_ops ⟨false, [], []⟩ rfl "A" "$$L" false⟩

/-- C9 counterexample: a fire-and-forget `_write` on a closed handle
still transmits its five-byte frame `A$$L\r` before failing, so the
claim that every operation on a closed connection performs no
transmission is false. -/
theorem closed_write_transmits_counterexample :
    (writeOp ⟨false, [], []⟩ "A" "$$L" false).1.sent = [[65, 36, 36, 76, 13]] ∧
    (writeOp ⟨false, [], []⟩ "A" "$$L" false).1.sent.length = 1 ∧
    (writeOp ⟨false, [], []⟩ "A" "$$L" false).2
        = .error SErr.connectionClosed := by
  decide

/-! ### Gas changes and wear-leveling

Embeds `MassFlowMeter.set_gas` (`src/Alicat/alicat.py` lines 297-306)
together with the gas-disable path of `_eeprom_saving` (lines 158-178).
Gas identities are the resolved integer indices (`gas_ref` maps both a
short name and an index to the index, so the guard compares resolved
indices).  The device's register 18 is modelled as state taking the
value computed by `_eeprom_saving`'s write, and the trailing
`_eeprom_saving(read=True)` re-derives `ram_only_gas` from bit 11. -/

/-- The per-handle state that `set_gas` touches. -/
structure MeterVars where
  gas_changes : Nat
  ram_only_gas : Nat
  current_gas : Nat
  reg18 : Nat
deriving DecidableEq

/-- `_eeprom_saving(setting='gas', state=False)` followed by its
trailing read-mode recursion. -/
def eepromGasDisable (s : MeterVars) : MeterVars :=
  let r := eepromNewR18 s.reg18 .gas false
  { s with reg18 := r, ram_only_gas := if r &&& 2048 ≠ 0 then 1 else 0 }

/-- `set_gas(gas)`: on an actual change, send `$$G<idx>`, update the
current gas, bump the counter, and disable gas persistence once the
counter passes 10000 while `ram_only_gas` is still 0. -/
def set_gas (s : MeterVars) (g : Nat) : MeterVars :=
  if g ≠ s.current_gas then
    let s1 := { s with current_gas := g, gas_changes := s.gas_changes + 1 }
    if s1.gas_changes > 10000 ∧ s1.ram_only_gas = 0 then eepromGasDisable s1 else s1
  else s

/-- A gas different from the currently selected one (so that every
`set_gas` call in a run is a successful change). -/
def nextGas (s : MeterVars) : Nat :=
  if s.current_gas = 1 then 2 else 1

/-- A run of `n` successful gas changes. -/
def runGasChanges : Nat → MeterVars → MeterVars
  | 0, s => s
  | n + 1, s => runGasChanges n (set_gas s (nextGas s))

/-- The two phases a handle passes through: before the wear-leveling
trigger (counter at most 10000, persistence bit clear) and after it
(counter past 10000, bit 11 set once). -/
def gasInv (b : Nat) (s : MeterVars) : Prop :=
  (s.gas_changes ≤ 10000 ∧ s.ram_only_gas = 0 ∧ s.reg18 = b) ∨
  (10001 ≤ s.gas_changes ∧ s.ram_only_gas = 1 ∧ s.reg18 = b + 2048)

theorem bit11_clear_div (b : Nat) (hb : b &&& 2048 = 0) : b / 2048 % 2 = 0 := by
  rw [and_2048_eq] at hb
  by_cases h : b / 2048 % 2 = 1
  · rw [if_pos h] at hb; omega
  · omega

theorem bit11_set_after_add {b : Nat} (hb : b &&& 2048 = 0) :
    (b + 2048) &&& 2048 ≠ 0 := by
  have h0 := bit11_clear_div b hb
  rw [and_2048_eq, if_pos (by omega)]
  omega

/-- One successful `set_gas` preserves the two-phase invariant and
increments the counter. -/
theorem set_gas_inv (b : Nat) (hb : b &&& 2048 = 0) (s : MeterVars) (g : Nat)
    (hg : g ≠ s.current_gas) (hi : gasInv b s) :
    gasInv b (set_gas s g) ∧ (set_gas s g).gas_changes = s.gas_changes + 1 := by
  unfold set_gas
  rw [if_pos hg]
  rcases hi with ⟨h1, h2, h3⟩ | ⟨h1, h2, h3⟩
  · by_cases hc : s.gas_changes + 1 > 10000
    · rw [if_pos (by simp [hc, h2])]
      have hr : eepromNewR18 b .gas false = b + 2048 := by
        unfold eepromNewR18
        simp [hb]
      have hd : eepromGasDisable
          { s with current_gas := g, gas_changes := s.gas_changes + 1 }
          = { gas_changes := s.gas_changes + 1, ram_only_gas := 1,
              current_gas := g, reg18 := b + 2048 } := by
        unfold eepromGasDisable
        simp [h3, hr, bit11_set_after_add hb]
      rw [hd]
      exact ⟨Or.inr ⟨show 10001 ≤ s.gas_changes + 1 by omega, rfl, rfl⟩, rfl⟩
    · rw [if_neg (by simp [hc])]
      exact ⟨Or.inl ⟨show s.gas_changes + 1 ≤ 10000 by omega, h2, h3⟩, rfl⟩
  · rw [if_neg (by simp [h2])]
    exact ⟨Or.inr ⟨show 10001 ≤ s.gas_changes + 1 by omega, h2, h3⟩, rfl⟩

/-- A run of successful changes preserves the invariant and adds its
length to the counter. -/
theorem runGasChanges_inv (b : Nat) (hb : b &&& 2048 = 0) :
    ∀ (n : Nat) (s : MeterVars), gasInv b s →
      gasInv b (runGasChanges n s) ∧
      (runGasChanges n s).gas_changes = s.gas_changes + n := by
  intro n
  induction n with
  | zero => intro s hi; exact ⟨hi, rfl⟩
  | succ n ih =>
    intro s hi
    have hg : nextGas s ≠ s.current_gas := by
      unfold nextGas
      split_ifs with h
      · rw [h]; omega
      · exact fun hc => h hc.symm
    have hstep := set_gas_inv b hb s (nextGas s) hg hi
    have hrun := ih (set_gas s (nextGas s)) hstep.1
    simp only [runGasChanges]
    exact ⟨hrun.1, by rw [hrun.2, hstep.2]; omega⟩

/-- C4 (amended): starting from a fresh handle (counter 0, gas-save not
RAM-only, bit 11 of register 18 clear), each successful gas change
increments the counter, and gas persistence is disabled exactly once,
on the change that takes the counter to 10001 (i.e. after exactly
10,000 recorded changes the next change disables it); once
`ram_only_gas` is set, later changes never touch register 18 again. -/
theorem gas_wear_leveling (b : Nat) (hb : b &&& 2048 = 0) (k : Nat) :
    (runGasChanges k ⟨0, 0, 0, b⟩).gas_changes = k ∧
    (runGasChanges k ⟨0, 0, 0, b⟩).ram_only_gas = (if 10001 ≤ k then 1 else 0) ∧
    (runGasChanges k ⟨0, 0, 0, b⟩).reg18 = (if 10001 ≤ k then b + 2048 else b) ∧
    (∀ (s : MeterVars) (g : Nat), s.ram_only_gas = 1 →
      (set_gas s g).reg18 = s.reg18 ∧ (set_gas s g).ram_only_gas = 1) := by
  have h0 : gasInv b ⟨0, 0, 0, b⟩ := Or.inl ⟨Nat.zero_le 10000, rfl, rfl⟩
  have hrun := runGasChanges_inv b hb k ⟨0, 0, 0, b⟩ h0
  have hcount : (runGasChanges k ⟨0, 0, 0, b⟩).gas_changes = k := by
    simpa using hrun.2
  refine ⟨hcount, ?_, ?_, ?_⟩
  · rcases hrun.1 with ⟨h1, h2, _⟩ | ⟨h1, h2, _⟩ <;> rw [h2] <;>
      rw [hcount] at h1 <;> split_ifs <;> omega
  · rcases hrun.1 with ⟨h1, _, h3⟩ | ⟨h1, _, h3⟩ <;> rw [h3] <;>
      rw [hcount] at h1 <;> split_ifs <;> omega
  · intro s g h1
    unfold set_gas
    by_cases hg : g ≠ s.current_gas
    · rw [if_pos hg, if_neg (by simp [h1])]
      exact ⟨rfl, by simp [h1]⟩
    · rw [if_neg hg]
      exact ⟨rfl, h1⟩

/-- Witness for `gas_wear_leveling` on a concrete clear register after
three changes. -/
theorem gas_wear_leveling_witness :
    ((0 : Nat) &&& 2048 = 0) ∧
    ((runGasChanges 3 ⟨0, 0, 0, 0⟩).gas_changes = 3 ∧
     (runGasChanges 3 ⟨0, 0, 0, 0⟩).ram_only_gas = (if 10001 ≤ 3 then 1 else 0) ∧
     (runGasChanges 3 ⟨0, 0, 0, 0⟩).reg18 = (if 10001 ≤ 3 then 0 + 2048 else 0) ∧
     (∀ (s : MeterVars) (g : Nat), s.ram_only_gas = 1 →
       (set_gas s g).reg18 = s.reg18 ∧ (set_gas s g).ram_only_gas = 1)) :=
  ⟨by decide, gas_wear_leveling 0 (by decide) 3⟩

/-- C4 counterexample: from a fresh handle, after 10,000 recorded
changes gas-save is still not RAM-only, and after 10,001 recorded
changes it already is — the disable fires on the 10,001st change
itself, so it cannot also fire on "the next gas change after exactly
10,001 recorded changes with gas-save not RAM-only" as the claim
states (that configuration never occurs). -/
theorem gas_wear_leveling_counterexample :
    (runGasChanges 10000 ⟨0, 0, 0, 0⟩).gas_changes = 10000 ∧
    (runGasChanges 10000 ⟨0, 0, 0, 0⟩).ram_only_gas = 0 ∧
    (runGasChanges 10001 ⟨0, 0, 0, 0⟩).gas_changes = 10001 ∧
    (runGasChanges 10001 ⟨0, 0, 0, 0⟩).ram_only_gas = 1 := by
  have h0 : gasInv 0 ⟨0, 0, 0, 0⟩ := Or.inl ⟨by decide, rfl, rfl⟩
  have ha := runGasChanges_inv 0 (by decide) 10000 ⟨0, 0, 0, 0⟩ h0
  have hb := runGasChanges_inv 0 (by decide) 10001 ⟨0, 0, 0, 0⟩ h0
  have hca : (runGasChanges 10000 ⟨0, 0, 0, 0⟩).gas_changes = 10000 := by
    simpa using ha.2
  have hcb : (runGasChanges 10001 ⟨0, 0, 0, 0⟩).gas_changes = 10001 := by
    simpa using hb.2
  refine ⟨hca, ?_, hcb, ?_⟩
  · rcases ha.1 with ⟨h1, h2, _⟩ | ⟨h1, h2, _⟩
    · exact h2
    · rw [hca] at h1; omega
  · rcases hb.1 with ⟨h1, h2, _⟩ | ⟨h1, h2, _⟩
    · rw [hcb] at h1; omega
    · exact h2

end Alicat
